import Mathlib

/-!
Shallow embedding of the commissaire control plane: the HTTP handlers for
hosts and clusters (src/commissaire/handlers/hosts.py and clusters.py) and
the investigator worker (src/commissaire/jobs/investigator.py), together with
theorems settling the frozen claims about them.

Conventions of the embedding:
* JSON documents are the inductive `Json`; `json.loads` of a request body is
  an `Option Json` (`none` models a body that fails to parse, which raises
  `ValueError` in Python).
* The etcd adapter is an association list `Store`; `etcd.EtcdKeyNotFound`
  surfaces as `Option`/`PyErr.etcdKeyNotFound`.
* Python exceptions that handlers catch or let escape are the enum `PyErr`;
  a handler that lets an exception propagate returns `Except.error`.
* Python `set(...)` iteration order is unspecified; the model fixes the
  deduplicated first-listed order.  Theorems about hostsets only ever use
  membership, never order.
-/

/-- JSON values, as produced by `json.loads` and consumed by `json.dumps`. -/
inductive Json where
  | null : Json
  | bool : Bool → Json
  | num : Int → Json
  | str : String → Json
  | arr : List Json → Json
  | obj : List (String × Json) → Json

mutual

/-- Boolean equality of JSON values. -/
def Json.beq : Json → Json → Bool
  | .null, .null => true
  | .bool a, .bool b => a = b
  | .num a, .num b => a = b
  | .str a, .str b => a = b
  | .arr xs, .arr ys => Json.beqL xs ys
  | .obj fs, .obj gs => Json.beqF fs gs
  | _, _ => false

/-- Boolean equality of JSON arrays. -/
def Json.beqL : List Json → List Json → Bool
  | [], [] => true
  | x :: xs, y :: ys => Json.beq x y && Json.beqL xs ys
  | _, _ => false

/-- Boolean equality of JSON object fields. -/
def Json.beqF : List (String × Json) → List (String × Json) → Bool
  | [], [] => true
  | (k1, v1) :: fs, (k2, v2) :: gs =>
      decide (k1 = k2) && Json.beq v1 v2 && Json.beqF fs gs
  | _, _ => false

end

mutual

/-- `Json.beq` decides equality. -/
theorem Json.beq_iff : ∀ (a b : Json), Json.beq a b = true ↔ a = b
  | .null, b => by cases b <;> simp [Json.beq]
  | .bool a, b => by cases b <;> simp [Json.beq]
  | .num a, b => by cases b <;> simp [Json.beq]
  | .str a, b => by cases b <;> simp [Json.beq]
  | .arr xs, b => by
      cases b <;> simp [Json.beq]
      exact Json.beqL_iff xs _
  | .obj fs, b => by
      cases b <;> simp [Json.beq]
      exact Json.beqF_iff fs _

/-- `Json.beqL` decides equality of arrays. -/
theorem Json.beqL_iff : ∀ (xs ys : List Json), Json.beqL xs ys = true ↔ xs = ys
  | [], ys => by cases ys <;> simp [Json.beqL]
  | x :: xs, ys => by
      cases ys with
      | nil => simp [Json.beqL]
      | cons y ys =>
          simp [Json.beqL, Bool.and_eq_true, Json.beq_iff x y,
            Json.beqL_iff xs ys]

/-- `Json.beqF` decides equality of object field lists. -/
theorem Json.beqF_iff : ∀ (fs gs : List (String × Json)),
    Json.beqF fs gs = true ↔ fs = gs
  | [], gs => by cases gs <;> simp [Json.beqF]
  | (k1, v1) :: fs, gs => by
      cases gs with
      | nil => simp [Json.beqF]
      | cons g gs =>
          obtain ⟨k2, v2⟩ := g
          simp [Json.beqF, Bool.and_eq_true, Json.beq_iff v1 v2,
            Json.beqF_iff fs gs, and_assoc]

end

instance : DecidableEq Json := fun a b =>
  decidable_of_iff (Json.beq a b = true) (Json.beq_iff a b)

/-- The Python exceptions the handlers interact with. -/
inductive PyErr where
  | keyError : PyErr
  | typeError : PyErr
  | valueError : PyErr
  | etcdKeyNotFound : PyErr
deriving DecidableEq

namespace Json

/-- Python subscription `d[k]` with a string key: a lookup on a dict,
`KeyError` when the key is absent, `TypeError` on any non-dict value. -/
def getItem : Json → String → Except PyErr Json
  | .obj fs, k =>
      match fs.lookup k with
      | some v => .ok v
      | none => .error .keyError
  | _, _ => .error .typeError

/-- Python truthiness of a JSON value, as used by `if cluster_name:`. -/
def truthy : Json → Bool
  | .null => false
  | .bool b => b
  | .num n => decide (n ≠ 0)
  | .str s => decide (s ≠ "")
  | .arr xs => !xs.isEmpty
  | .obj fs => !fs.isEmpty

/-- Elements Python cannot put into a set (unhashable: lists and dicts). -/
def unhashable : Json → Bool
  | .arr _ => true
  | .obj _ => true
  | _ => false

/-- The string `'...'.format(v)` renders a value to.  Only string values are
used by the handlers under verification; containers get a marker. -/
def pyStr : Json → String
  | .str s => s
  | .num n => toString n
  | .bool true => "True"
  | .bool false => "False"
  | .null => "None"
  | .arr _ => "[list]"
  | .obj _ => "[dict]"

end Json

/-- Python `set(x)`: `TypeError` when `x` is not iterable or holds an
unhashable element; a string iterates to its one-character strings; a dict
iterates to its keys.  The result list is duplicate-free; its order stands
for the unspecified Python set order. -/
def pySet : Json → Except PyErr (List Json)
  | .arr xs =>
      if xs.any Json.unhashable then .error .typeError else .ok xs.dedup
  | .str s => .ok ((s.toList.map fun c => Json.str (String.singleton c)).dedup)
  | .obj fs => .ok ((fs.map fun p => Json.str p.1).dedup)
  | _ => .error .typeError

/-- Equality of Python sets represented as duplicate-free lists. -/
def pySetEqb (a b : List Json) : Bool :=
  (a.all fun x => decide (x ∈ b)) && (b.all fun x => decide (x ∈ a))

/-- Python dict assignment `d[k] = v`: replace the binding in place when the
key is bound, else append it at the end (dict insertion order). -/
def dictSet : List (String × Json) → String → Json → List (String × Json)
  | [], k, v => [(k, v)]
  | (k0, v0) :: fs, k, v =>
      if k0 = k then (k, v) :: fs else (k0, v0) :: dictSet fs k v

/-- Python `d.pop(k, None)` restricted to its removal effect. -/
def dictErase : List (String × Json) → String → List (String × Json)
  | [], _ => []
  | (k0, v0) :: fs, k =>
      if k0 = k then dictErase fs k else (k0, v0) :: dictErase fs k

/-- Python `d.update(other)`: assign every pair of `other` in order. -/
def dictUpdate (fs other : List (String × Json)) : List (String × Json) :=
  other.foldl (fun acc p => dictSet acc p.1 p.2) fs

/-- Whether a key occurs anywhere in a JSON document, at any depth.  Used to
state that `ssh_priv_key` never reaches a persisted value or response. -/
def Json.mentionsKey (k : String) : Json → Bool
  | .arr xs => go xs
  | .obj fs => goF fs
  | _ => false
where
  /-- Key occurrence across the elements of an array. -/
  go : List Json → Bool
    | [] => false
    | x :: xs => Json.mentionsKey k x || go xs
  /-- Key occurrence across the fields of an object. -/
  goF : List (String × Json) → Bool
    | [] => false
    | (k0, v) :: fs => k0 = k || Json.mentionsKey k v || goF fs

/-- The etcd adapter: an association list from keys to JSON documents.
`store.set` keeps keys unique when they start unique. -/
abbrev Store := List (String × Json)

namespace Store

/-- `store.get(key)`: first binding of the key, `None` when absent
(`etcd.EtcdKeyNotFound` at the call sites). -/
def get : Store → String → Option Json
  | [], _ => none
  | (k0, v) :: rest, k => if k0 = k then some v else get rest k

/-- `store.set(key, value)`: replace the first binding in place, else append. -/
def set : Store → String → Json → Store
  | [], k, v => [(k, v)]
  | (k0, v0) :: rest, k, v =>
      if k0 = k then (k, v) :: rest else (k0, v0) :: set rest k v

/-- `store.delete(key)`: `none` models `etcd.EtcdKeyNotFound`. -/
def del : Store → String → Option Store
  | [], _ => none
  | (k0, v) :: rest, k =>
      if k0 = k then some rest
      else (del rest k).map fun s => (k0, v) :: s

end Store

/-- Modelled from the spec: the Cluster model of the missing models.py.
`Cluster(**json.loads(v))` binds a status and a hostset (a JSON array),
rejecting records without them, and `to_json(secure=True)` re-emits both
fields (a cluster record holds no private key material to strip). -/
structure Cluster where
  status : Json
  hostset : List Json
deriving DecidableEq

namespace Cluster

/-- Deserialization of a cluster record. -/
def ofJson : Json → Option Cluster
  | .obj fs =>
      match fs.lookup "status", fs.lookup "hostset" with
      | some st, some (.arr hs) => some ⟨st, hs⟩
      | _, _ => none
  | _ => none

/-- Serialization of a cluster record, as persisted by the handlers. -/
def toJson (c : Cluster) : Json :=
  .obj [("status", c.status), ("hostset", .arr c.hostset)]

end Cluster

/-- Modelled from the spec: the Host model of the missing models.py.
Attributes per the data model: address, status, os, cpus, memory, space,
last_check, and the private `ssh_priv_key` (absent from the secure
projection; it defaults to null when deserializing a secure record). -/
structure Host where
  address : String
  status : String
  os : String
  cpus : Int
  memory : Int
  space : Int
  last_check : Json
  ssh_priv_key : Json
deriving DecidableEq

namespace Host

/-- `Host(**fields)`: bind the required attributes, with the private key
optional (the secure projection round-trips through this). -/
def ofDict (fs : List (String × Json)) : Option Host :=
  match fs.lookup "address", fs.lookup "status", fs.lookup "os",
      fs.lookup "cpus", fs.lookup "memory", fs.lookup "space",
      fs.lookup "last_check" with
  | some (.str a), some (.str st), some (.str osName), some (.num c),
      some (.num m), some (.num sp), some lc =>
      some { address := a, status := st, os := osName, cpus := c,
             memory := m, space := sp, last_check := lc,
             ssh_priv_key := ((fs.lookup "ssh_priv_key").getD .null) }
  | _, _, _, _, _, _, _ => none

/-- `host.to_json(secure)`: the secure projection omits `ssh_priv_key`. -/
def toJson (h : Host) (secure : Bool) : Json :=
  .obj ([("address", .str h.address), ("status", .str h.status),
         ("os", .str h.os), ("cpus", .num h.cpus),
         ("memory", .num h.memory), ("space", .num h.space),
         ("last_check", h.last_check)] ++
        (if secure then [] else [("ssh_priv_key", h.ssh_priv_key)]))

end Host

/-- The etcd key of a host record. -/
def hostsKeyOf (address : String) : String := "/commissaire/hosts/" ++ address

/-- The etcd key of a cluster record. -/
def clustersKeyOf (name : String) : String := "/commissaire/clusters/" ++ name

/-- The common prefix of all children of the clusters directory. -/
def clustersDirPre : String := "/commissaire/clusters/"

/-- Whether a key is a child of the clusters directory. -/
def underClustersDir (k : String) : Bool := clustersDirPre.data.isPrefixOf k.data

/-- Outcome of ClusterHostsResource.on_put: status, resulting store, the keys
fetched from the store and the values written to it, in order. -/
structure ClusterHostsPutRes where
  status : Nat
  store : Store
  reads : List String
  writes : List (String × Json)
deriving DecidableEq

/-- The parse prologue of ClusterHostsResource.on_put (clusters.py 242-245):
`json.loads` of the body, then `set(req_body['old'])`, then
`set(req_body['new'])`. -/
def parseOldNew (body : Option Json) : Except PyErr (List Json × List Json) :=
  match body with
  | none => .error .valueError
  | some b =>
      match b.getItem "old" with
      | .error e => .error e
      | .ok oldV =>
          match pySet oldV with
          | .error e => .error e
          | .ok oldS =>
              match b.getItem "new" with
              | .error e => .error e
              | .ok newV =>
                  match pySet newV with
                  | .error e => .error e
                  | .ok newS => .ok (oldS, newS)

/-- ClusterHostsResource.on_put (clusters.py 230-279).  The except clause
catches only KeyError and TypeError (400); a ValueError from a body that is
not JSON propagates.  404 when the cluster record is absent, 409 when
`set(old)` differs from the current hostset as a set, otherwise the hostset
is replaced by `list(set(new))` and persisted with status 200. -/
def clusterHostsPut (store : Store) (name : String) (body : Option Json) :
    Except PyErr ClusterHostsPutRes :=
  match parseOldNew body with
  | .error .keyError => .ok ⟨400, store, [], []⟩
  | .error .typeError => .ok ⟨400, store, [], []⟩
  | .error e => .error e
  | .ok (oldHosts, newHosts) =>
      let key := clustersKeyOf name
      match store.get key with
      | none => .ok ⟨404, store, [key], []⟩
      | some cv =>
          match Cluster.ofJson cv with
          | none => .error .typeError
          | some cl =>
              match pySet (.arr cl.hostset) with
              | .error e => .error e
              | .ok current =>
                  if pySetEqb oldHosts current then
                    let cl2 : Cluster := { cl with hostset := newHosts }
                    .ok ⟨200, store.set key cl2.toJson, [key],
                         [(key, cl2.toJson)]⟩
                  else .ok ⟨409, store, [key], []⟩

/-- Outcome of a restart or upgrade initiation: status, resulting store, keys
read, the spawned pool tasks with the positional arguments passed to them
(the store handle, carried alongside, is elided), and the response model. -/
structure ClusterExecPutRes where
  status : Nat
  store : Store
  reads : List String
  spawned : List (String × List String)
  respModel : Option Json
deriving DecidableEq

/-- ClusterRestartResource.on_put (clusters.py 413-437): spawn
`clusterexec(name, 'restart', store)`, unconditionally write a fresh progress
record, answer 201 with it.  The ClusterRestart model is modelled from the
spec (models.py is not under src/) as the identity on its record. -/
def clusterRestartPut (store : Store) (name : String) (now : String) :
    ClusterExecPutRes :=
  let spawned := [("clusterexec", [name, "restart"])]
  let key := "/commissaire/cluster/" ++ name ++ "/restart"
  let record := Json.obj [("status", .str "in_process"),
    ("restarted", .arr []), ("in_process", .arr []),
    ("started_at", .str now), ("finished_at", .null)]
  ⟨201, store.set key record, [], spawned, some record⟩

/-- The parse prologue of ClusterUpgradeResource.on_put (clusters.py
487-493): `json.loads` then `args['upgrade_to']`, catching KeyError and
ValueError. -/
def parseUpgradeTo (body : Option Json) : Except PyErr Json :=
  match body with
  | none => .error .valueError
  | some b => b.getItem "upgrade_to"

/-- ClusterUpgradeResource.on_put (clusters.py 476-509): 400 on a missing
`upgrade_to` or a non-JSON body; otherwise spawn
`clusterexec(name, 'upgrade', store)` — the source marks the spot with
`FIXME: How do I pass 'upgrade_to'?` and passes only these arguments — then
write a fresh progress record holding `upgrade_to` and answer 201 with it. -/
def clusterUpgradePut (store : Store) (name : String) (body : Option Json)
    (now : String) : Except PyErr ClusterExecPutRes :=
  match parseUpgradeTo body with
  | .error .keyError => .ok ⟨400, store, [], [], none⟩
  | .error .valueError => .ok ⟨400, store, [], [], none⟩
  | .error e => .error e
  | .ok upgradeTo =>
      let spawned := [("clusterexec", [name, "upgrade"])]
      let key := "/commissaire/cluster/" ++ name ++ "/upgrade"
      let record := Json.obj [("status", .str "in_process"),
        ("upgrade_to", upgradeTo), ("upgraded", .arr []),
        ("in_process", .arr []), ("started_at", .str now),
        ("finished_at", .null)]
      .ok ⟨201, store.set key record, [], spawned, some record⟩

/-- Outcome of HostResource.on_put: status, resulting store, investigate
queue (pairs of host-creation dict and private key), values written, and the
Host model answered on 201. -/
structure HostPutRes where
  status : Nat
  store : Store
  queue : List (Json × Json)
  writes : List (String × Json)
  respModel : Option Host
deriving DecidableEq

/-- hosts.py 113-119: the creation dict after the handler overwrites the
address, os, status, cpus, memory, space and last_check fields. -/
def hostCreationInit (fs0 : List (String × Json)) (address : String) :
    List (String × Json) :=
  dictSet (dictSet (dictSet (dictSet (dictSet (dictSet
    (dictSet fs0 "address" (.str address)) "os" (.str ""))
    "status" (.str "investigating")) "cpus" (.num (-1)))
    "memory" (.num (-1))) "space" (.num (-1))) "last_check" .null

/-- `hostset = set(cluster.hostset); hostset.add(address); list(hostset)`
from hosts.py 142-144. -/
def hostsetAdd (hs : List Json) (address : String) : Except PyErr (List Json) :=
  match pySet (.arr hs) with
  | .error e => .error e
  | .ok s => .ok (if Json.str address ∈ s then s else s ++ [Json.str address])

/-- The tail of HostResource.on_put after the optional cluster lookup
(hosts.py 146-161): build the Host, persist its secure projection, enqueue
the creation dict with the private key, persist the updated cluster when one
was named, and answer 201 with a Host parsed back from the stored value. -/
def hostPutFinish (store : Store) (queue : List (Json × Json))
    (address : String) (fs2 : List (String × Json)) (sshKey : Json)
    (clusterAct : Option (String × Cluster)) : Except PyErr HostPutRes :=
  match Host.ofDict fs2 with
  | none => .error .typeError
  | some h =>
      let hostJson := h.toJson true
      let store1 := store.set (hostsKeyOf address) hostJson
      let queue1 := queue ++ [(Json.obj fs2, sshKey)]
      let store2 := match clusterAct with
        | some (ck, cl2) => store1.set ck cl2.toJson
        | none => store1
      let writes := (hostsKeyOf address, hostJson) ::
        (match clusterAct with
         | some (ck, cl2) => [(ck, cl2.toJson)]
         | none => [])
      match hostJson with
      | .obj hfs =>
          match Host.ofDict hfs with
          | none => .error .typeError
          | some h2 => .ok ⟨201, store2, queue1, writes, some h2⟩
      | _ => .error .typeError

/-- HostResource.on_put (hosts.py 91-161): 409 when the host record exists;
parse the body (a non-JSON body raises an uncaught ValueError, a missing
`ssh_priv_key` an uncaught KeyError); initialize the creation dict, pop the
cluster name, and when one is given verify the cluster exists — 409 before
any write when it does not; then persist, enqueue, join the cluster, 201. -/
def hostPut (store : Store) (queue : List (Json × Json)) (address : String)
    (body : Option Json) : Except PyErr HostPutRes :=
  match store.get (hostsKeyOf address) with
  | some _ => .ok ⟨409, store, queue, [], none⟩
  | none =>
      match body with
      | none => .error .valueError
      | some (.obj fs0) =>
          match fs0.lookup "ssh_priv_key" with
          | none => .error .keyError
          | some sshKey =>
              let fs1 := hostCreationInit fs0 address
              let clusterVal := fs1.lookup "cluster"
              let fs2 := dictErase fs1 "cluster"
              let doCluster := match clusterVal with
                | some v => v.truthy
                | none => false
              if doCluster then
                let cKey := clustersKeyOf (Json.pyStr (clusterVal.getD .null))
                match store.get cKey with
                | none => .ok ⟨409, store, queue, [], none⟩
                | some cv =>
                    match Cluster.ofJson cv with
                    | none => .error .typeError
                    | some cl =>
                        match hostsetAdd cl.hostset address with
                        | .error e => .error e
                        | .ok hs2 =>
                            hostPutFinish store queue address fs2 sshKey
                              (some (cKey, { cl with hostset := hs2 }))
              else hostPutFinish store queue address fs2 sshKey none
      | some _ => .error .typeError

/-- Outcome of HostResource.on_delete. -/
structure HostDeleteRes where
  status : Nat
  store : Store
  writes : List (String × Json)
deriving DecidableEq

/-- One iteration of the membership scrub loop of HostResource.on_delete
(hosts.py 191-196): parse the cluster record, and when the address is in its
hostset remove the first occurrence and persist. -/
def scrubStep (address : String)
    (acc : Except PyErr (Store × List (String × Json)))
    (entry : String × Json) : Except PyErr (Store × List (String × Json)) :=
  match acc with
  | .error e => .error e
  | .ok (s, ws) =>
      match Cluster.ofJson entry.2 with
      | none => .error .typeError
      | some cl =>
          if Json.str address ∈ cl.hostset then
            let cl2 : Cluster :=
              { cl with hostset := cl.hostset.erase (Json.str address) }
            .ok (s.set entry.1 cl2.toJson, ws ++ [(entry.1, cl2.toJson)])
          else .ok (s, ws)

/-- HostResource.on_delete (hosts.py 163-196): delete the host key — 410 on
success, 404 when absent — then, in either case, walk a snapshot of the
clusters directory and remove the address from every hostset holding it. -/
def hostDelete (store : Store) (address : String) : Except PyErr HostDeleteRes :=
  let delRes := store.del (hostsKeyOf address)
  let st : Nat := match delRes with
    | some _ => 410
    | none => 404
  let store1 := delRes.getD store
  let entries := store1.filter fun p => underClustersDir p.1
  match entries.foldl (scrubStep address) (.ok (store1, [])) with
  | .error e => .error e
  | .ok (s2, ws) => .ok ⟨st, s2, ws⟩

/-- Observable side effects of the investigator while processing one item. -/
inductive Effect where
  | keyWrite : String → Effect
  | keyUnlink : Effect
  | storeSet : String → Json → Effect
  | cmCall : Nat → Effect
  | sleep : Nat → Effect
deriving DecidableEq

/-- The host transport and container manager reached from the investigator,
abstracted to their outcomes: the facts `get_info` returns (or its failure),
whether `bootstrap` succeeds, and the answer of `node_registered` on each
attempt. -/
structure Transport where
  getInfo : Except Unit (List (String × Json))
  bootstrapOk : Bool
  nodeRegistered : Nat → Bool

/-- Outcome of processing one investigator queue item: the uncaught exception
escaping the worker loop when one is raised, the resulting store, and the
side effects performed before returning or crashing. -/
structure InvResult where
  err : Option PyErr
  store : Store
  effects : List Effect

/-- The container-manager retry loop, verbatim from investigator.py 135-147:
`for cnt in range(0, 3)` probes `node_registered`; on success mark active and
break; otherwise the source's guard `if cnt == 3` (never true inside
`range(0, 3)`) would raise, and else the loop sleeps five seconds and goes
on.  `.ok true` is a break with active, `.ok false` an exhausted loop,
`.error` the dead guard firing. -/
def cmLoop (reg : Nat → Bool) : List Nat → Except Unit Bool × List Effect
  | [] => (.ok false, [])
  | cnt :: rest =>
      if reg cnt then (.ok true, [.cmCall cnt])
      else if cnt = 3 then (.error (), [.cmCall cnt])
      else
        let r := cmLoop reg rest
        (r.1, .cmCall cnt :: .sleep 5 :: r.2)

/-- One iteration of the investigator worker loop (investigator.py 69-163)
on a dequeued `(to_investigate, ssh_priv_key)` item.  The temporary key file
is materialized first; `store.get` of the host record stands outside every
try block, so a missing record raises an uncaught EtcdKeyNotFound; the
`get_info` and `bootstrap` failures are caught and become the failed and
disassociated statuses with cleanup; the container-manager loop then decides
active against inactive, the record is persisted and the key file removed. -/
def investigatorItem (store : Store) (tr : Transport) (toInvestigate : Json)
    (now : String) : InvResult :=
  match toInvestigate.getItem "address" with
  | .error e => ⟨some e, store, []⟩
  | .ok addrV =>
      let address := Json.pyStr addrV
      let es0 := [Effect.keyWrite address]
      let key := hostsKeyOf address
      match store.get key with
      | none => ⟨some .etcdKeyNotFound, store, es0⟩
      | some (.obj dfs) =>
          match tr.getInfo with
          | .error _ =>
              let v1 := Json.obj (dictSet dfs "status" (.str "failed"))
              ⟨none, store.set key v1, es0 ++ [.storeSet key v1, .keyUnlink]⟩
          | .ok facts =>
              let d1 := dictSet (dictSet (dictUpdate dfs facts)
                "last_check" (.str now)) "status" (.str "bootstrapping")
              let v1 := Json.obj d1
              let store1 := store.set key v1
              let es1 := es0 ++ [Effect.storeSet key v1]
              match d1.lookup "os" with
              | none => ⟨some .keyError, store1, es1⟩
              | some _ =>
                  if tr.bootstrapOk then
                    let d2 := dictSet d1 "status" (.str "inactive")
                    let v2 := Json.obj d2
                    let store2 := store1.set key v2
                    let es2 := es1 ++ [Effect.storeSet key v2]
                    let lp := cmLoop tr.nodeRegistered [0, 1, 2]
                    let d3 := match lp.1 with
                      | .ok true => dictSet d2 "status" (.str "active")
                      | .ok false => d2
                      | .error _ => dictSet d2 "status" (.str "inactive")
                    let v3 := Json.obj d3
                    ⟨none, store2.set key v3,
                      es2 ++ lp.2 ++ [.storeSet key v3, .keyUnlink]⟩
                  else
                    let d2 := dictSet d1 "status" (.str "disassociated")
                    let v2 := Json.obj d2
                    ⟨none, store1.set key v2,
                      es1 ++ [.storeSet key v2, .keyUnlink]⟩
      | some _ => ⟨some .typeError, store, es0⟩

/-- Setting a key makes it readable. -/
theorem Store.get_set_self (s : Store) (k : String) (v : Json) :
    (s.set k v).get k = some v := by
  induction s with
  | nil => simp [Store.set, Store.get]
  | cons p rest ih =>
      obtain ⟨k0, v0⟩ := p
      by_cases h : k0 = k <;> simp [Store.set, Store.get, h, ih]

/-- Setting a key leaves every other key unchanged. -/
theorem Store.get_set_ne (s : Store) (k k2 : String) (v : Json)
    (h : k2 ≠ k) : (s.set k v).get k2 = s.get k2 := by
  induction s with
  | nil => simp [Store.set, Store.get, Ne.symm h]
  | cons p rest ih =>
      obtain ⟨k0, v0⟩ := p
      by_cases h0 : k0 = k
      · subst h0
        simp [Store.set, Store.get, Ne.symm h]
      · simp [Store.set, Store.get, h0, ih]

/-- A successful get returns a binding of the store. -/
theorem Store.get_mem (s : Store) (k : String) (v : Json)
    (h : s.get k = some v) : (k, v) ∈ s := by
  induction s with
  | nil => simp [Store.get] at h
  | cons p rest ih =>
      obtain ⟨k0, v0⟩ := p
      by_cases h0 : k0 = k
      · subst h0
        simp [Store.get] at h
        simp [h]
      · simp [Store.get, h0] at h
        simp [ih h]

/-- With unique keys, membership determines the get result. -/
theorem Store.get_of_mem_nodup (s : Store) (k : String) (v : Json)
    (hnd : (s.map Prod.fst).Nodup) (hm : (k, v) ∈ s) : s.get k = some v := by
  induction s with
  | nil => simp at hm
  | cons p rest ih =>
      obtain ⟨k0, v0⟩ := p
      simp at hnd
      cases hm with
      | head => simp [Store.get]
      | tail _ hm =>
          have hk : k0 ≠ k := by
            intro hk
            subst hk
            exact hnd.1 v hm
          simp [Store.get, hk, ih hnd.2 hm]

/-- Deletion succeeds exactly when the key is present. -/
theorem Store.del_isSome (s : Store) (k : String) :
    (s.del k).isSome = (s.get k).isSome := by
  induction s with
  | nil => simp [Store.del, Store.get]
  | cons p rest ih =>
      obtain ⟨k0, v0⟩ := p
      by_cases h : k0 = k
      · simp [Store.del, Store.get, h]
      · simp only [Store.del, Store.get, if_neg h]
        rw [← ih]
        cases Store.del rest k <;> simp

/-- Deletion yields a sublist of the store. -/
theorem Store.del_sublist (s s2 : Store) (k : String)
    (h : s.del k = some s2) : s2.Sublist s := by
  induction s generalizing s2 with
  | nil => simp [Store.del] at h
  | cons p rest ih =>
      obtain ⟨k0, v0⟩ := p
      by_cases h0 : k0 = k
      · simp [Store.del, h0] at h
        subst h
        exact List.sublist_cons_self _ _
      · simp [Store.del, h0] at h
        cases hd : Store.del rest k with
        | none => simp [hd] at h
        | some s3 =>
            simp [hd] at h
            subst h
            exact List.Sublist.cons₂ _ (ih s3 hd)

/-- The keys after a set: unchanged when the key was bound, else appended. -/
theorem Store.map_fst_set (s : Store) (k : String) (v : Json) :
    (s.set k v).map Prod.fst =
      if k ∈ s.map Prod.fst then s.map Prod.fst
      else s.map Prod.fst ++ [k] := by
  induction s with
  | nil => simp [Store.set]
  | cons p rest ih =>
      obtain ⟨k0, v0⟩ := p
      by_cases h0 : k0 = k
      · simp [Store.set, h0]
      · by_cases hm : k ∈ rest.map Prod.fst <;>
          simp [Store.set, h0, ih, hm, Ne.symm h0]

/-- Setting a key preserves uniqueness of keys. -/
theorem Store.nodup_set (s : Store) (k : String) (v : Json)
    (h : (s.map Prod.fst).Nodup) : ((s.set k v).map Prod.fst).Nodup := by
  rw [Store.map_fst_set]
  by_cases hm : k ∈ s.map Prod.fst
  · simp [hm, h]
  · simp [hm, h, List.nodup_append]

/-- Lookup at a matching head. -/
theorem lookup_cons_self (fs : List (String × Json)) (k : String) (v : Json) :
    List.lookup k ((k, v) :: fs) = some v := by
  simp [List.lookup]

/-- Lookup past a non-matching head. -/
theorem lookup_cons_ne (fs : List (String × Json)) (k k0 : String) (v0 : Json)
    (h : k ≠ k0) : List.lookup k ((k0, v0) :: fs) = List.lookup k fs := by
  have hb : (k == k0) = false := by
    simpa using h
  simp [List.lookup, hb]

/-- A dict assignment makes the key readable. -/
theorem lookup_dictSet_self (fs : List (String × Json)) (k : String)
    (v : Json) : (dictSet fs k v).lookup k = some v := by
  induction fs with
  | nil => simp [dictSet, lookup_cons_self]
  | cons p rest ih =>
      obtain ⟨k0, v0⟩ := p
      by_cases h : k0 = k
      · simp [dictSet, h, lookup_cons_self]
      · simp [dictSet, h, lookup_cons_ne _ _ _ _ (Ne.symm h), ih]

/-- A dict assignment leaves every other key unchanged. -/
theorem lookup_dictSet_ne (fs : List (String × Json)) (k k2 : String)
    (v : Json) (h : k2 ≠ k) :
    (dictSet fs k v).lookup k2 = fs.lookup k2 := by
  induction fs with
  | nil => simp [dictSet, lookup_cons_ne _ _ _ _ h]
  | cons p rest ih =>
      obtain ⟨k0, v0⟩ := p
      by_cases h0 : k0 = k
      · subst h0
        simp [dictSet, lookup_cons_ne _ _ _ _ h]
      · by_cases h2 : k2 = k0
        · subst h2
          simp [dictSet, h0, lookup_cons_self]
        · simp [dictSet, h0, lookup_cons_ne _ _ _ _ h2, ih]

/-- Popping a key leaves every other key unchanged. -/
theorem lookup_dictErase_ne (fs : List (String × Json)) (k k2 : String)
    (h : k2 ≠ k) : (dictErase fs k).lookup k2 = fs.lookup k2 := by
  induction fs with
  | nil => simp [dictErase]
  | cons p rest ih =>
      obtain ⟨k0, v0⟩ := p
      by_cases h0 : k0 = k
      · subst h0
        simp [dictErase, ih, lookup_cons_ne _ _ _ _ h]
      · by_cases h2 : k2 = k0
        · subst h2
          simp [dictErase, h0, lookup_cons_self]
        · simp [dictErase, h0, lookup_cons_ne _ _ _ _ h2, ih]

/-- A successful lookup returns a binding of the dict. -/
theorem lookup_mem (fs : List (String × Json)) (k : String) (v : Json)
    (h : fs.lookup k = some v) : (k, v) ∈ fs := by
  induction fs with
  | nil => simp [List.lookup] at h
  | cons p rest ih =>
      obtain ⟨k0, v0⟩ := p
      by_cases h0 : k = k0
      · subst h0
        rw [lookup_cons_self] at h
        simp at h
        simp [h]
      · rw [lookup_cons_ne _ _ _ _ h0] at h
        simp [ih h]

/-- `set` over an array of hashable elements deduplicates it. -/
theorem pySet_arr_ok (xs : List Json) (h : xs.any Json.unhashable = false) :
    pySet (Json.arr xs) = .ok xs.dedup := by
  simp [pySet, h]

/-- Elements of a successful `set(...)` over an array are hashable. -/
theorem pySet_arr_elems (xs s : List Json) (h : pySet (Json.arr xs) = .ok s)
    (x : Json) (hx : x ∈ s) : Json.unhashable x = false := by
  cases hany : xs.any Json.unhashable with
  | true => simp [pySet, hany] at h
  | false =>
      simp [pySet, hany] at h
      subst h
      have hxm := List.mem_dedup.mp hx
      have := List.any_eq_false.mp hany
      simpa using this x hxm

/-- The cluster record serialization deserializes to itself. -/
theorem Cluster.ofJson_toJson (c : Cluster) :
    Cluster.ofJson c.toJson = some c := by
  simp [Cluster.ofJson, Cluster.toJson, List.lookup]

/-- A value that is not a list or dict mentions no key. -/
theorem mentionsKey_of_not_unhashable (k : String) (x : Json)
    (h : Json.unhashable x = false) : Json.mentionsKey k x = false := by
  cases x <;> simp [Json.unhashable] at h ⊢ <;> simp [Json.mentionsKey]

/-- An array of values mentioning no key mentions no key. -/
theorem mentionsKey_go_eq_false (k : String) (xs : List Json)
    (h : ∀ x ∈ xs, Json.mentionsKey k x = false) :
    Json.mentionsKey.go k xs = false := by
  induction xs with
  | nil => simp [Json.mentionsKey.go]
  | cons x xs ih =>
      simp [Json.mentionsKey.go, h x (by simp),
        ih fun y hy => h y (by simp [hy])]

/-- Key occurrence on an array in terms of its elements. -/
theorem mentionsKey_arr_eq_false (k : String) (xs : List Json)
    (h : ∀ x ∈ xs, Json.mentionsKey k x = false) :
    Json.mentionsKey k (Json.arr xs) = false := by
  simp [Json.mentionsKey, mentionsKey_go_eq_false k xs h]

/-- A clean object has clean field values under other names. -/
theorem mentionsKey_obj_field (k : String) (fs : List (String × Json))
    (k0 : String) (v : Json)
    (h : Json.mentionsKey k (Json.obj fs) = false) (hm : (k0, v) ∈ fs) :
    k0 ≠ k ∧ Json.mentionsKey k v = false := by
  induction fs with
  | nil => simp at hm
  | cons p rest ih =>
      obtain ⟨k1, v1⟩ := p
      simp [Json.mentionsKey, Json.mentionsKey.goF] at h
      cases hm with
      | head => exact ⟨h.1.1, h.1.2⟩
      | tail _ hm =>
          exact ih (by simpa [Json.mentionsKey] using h.2) hm

/-- C9: `PUT /cluster/{name}/restart` never consults the cluster record: for
every store, cluster name and timestamp it performs no store read, spawns the
restart task, unconditionally overwrites the progress key with a fresh
record (status in_process, empty restarted and in_process lists, null
finished_at) regardless of what was there, and returns 201. -/
theorem clusterRestartPut_unconditional (store : Store) (name now : String) :
    (clusterRestartPut store name now).status = 201 ∧
    (clusterRestartPut store name now).reads = [] ∧
    (clusterRestartPut store name now).spawned =
      [("clusterexec", [name, "restart"])] ∧
    Store.get (clusterRestartPut store name now).store
        ("/commissaire/cluster/" ++ name ++ "/restart") =
      some (Json.obj [("status", Json.str "in_process"),
        ("restarted", Json.arr []), ("in_process", Json.arr []),
        ("started_at", Json.str now), ("finished_at", Json.null)]) := by
  refine ⟨rfl, rfl, rfl, ?_⟩
  simp [clusterRestartPut, Store.get_set_self]

/-- C1: evaluating ClusterUpgradeResource.on_put at a concrete upgrade
request: the response is 201 and the stored progress record carries
upgrade_to, but the spawned task receives only the cluster name and the
operation — the requested version is not among the arguments handed to the
cluster-exec task, so the dispatcher does not propagate it toward the
host-transport upgrade call. -/
theorem clusterUpgradePut_omits_upgrade_to :
    clusterUpgradePut [] "development"
        (some (Json.obj [("upgrade_to", Json.str "7.0.2")])) "T0" =
      Except.ok ⟨201,
        [("/commissaire/cluster/development/upgrade",
          Json.obj [("status", Json.str "in_process"),
            ("upgrade_to", Json.str "7.0.2"), ("upgraded", Json.arr []),
            ("in_process", Json.arr []), ("started_at", Json.str "T0"),
            ("finished_at", Json.null)])],
        [], [("clusterexec", ["development", "upgrade"])],
        some (Json.obj [("status", Json.str "in_process"),
          ("upgrade_to", Json.str "7.0.2"), ("upgraded", Json.arr []),
          ("in_process", Json.arr []), ("started_at", Json.str "T0"),
          ("finished_at", Json.null)])⟩ ∧
    (["development", "upgrade"].contains "7.0.2") = false := by
  exact ⟨rfl, rfl⟩

/-- C8: evaluating ClusterHostsResource.on_put: a body that is valid JSON but
not an object carrying both keys answers 400 having read and written
nothing, but a body that is not JSON raises an uncaught ValueError (the
handler catches only KeyError and TypeError), not the 400 the spec
prescribes. -/
theorem clusterHostsPut_bad_body :
    clusterHostsPut [(clustersKeyOf "development",
        Json.obj [("status", Json.str "ok"),
          ("hostset", Json.arr [Json.str "10.2.0.2"])])] "development"
      none = Except.error PyErr.valueError ∧
    clusterHostsPut [(clustersKeyOf "development",
        Json.obj [("status", Json.str "ok"),
          ("hostset", Json.arr [Json.str "10.2.0.2"])])] "development"
      (some (Json.arr [Json.str "10.2.0.2", Json.str "10.2.0.3"])) =
      Except.ok ⟨400, [(clustersKeyOf "development",
        Json.obj [("status", Json.str "ok"),
          ("hostset", Json.arr [Json.str "10.2.0.2"])])], [], []⟩ := by
  exact ⟨rfl, rfl⟩

/-- C3: evaluating the investigator on a queue item whose host record is
absent from the store: the temporary key file is materialized, the
`store.get` of the host record — standing outside every try block — raises
an uncaught EtcdKeyNotFound that escapes the worker loop, and no keyUnlink
effect occurs: the key file is leaked on this exit path rather than removed
before the worker continues or exits. -/
theorem investigatorItem_missing_host_leaks_key_file :
    investigatorItem [] ⟨Except.ok [], true, fun _ => true⟩
        (Json.obj [("address", Json.str "10.2.0.2")]) "T0" =
      ⟨some PyErr.etcdKeyNotFound, [], [Effect.keyWrite "10.2.0.2"]⟩ ∧
    ([Effect.keyWrite "10.2.0.2"].contains Effect.keyUnlink) = false := by
  exact ⟨rfl, rfl⟩

/-- Deduplication is set-equal to the original list. -/
theorem pySetEqb_dedup_self (l : List Json) : pySetEqb l.dedup l = true := by
  simp [pySetEqb, List.all_eq_true, List.mem_dedup]

/-- C2: the compare-and-set of `PUT /cluster/{name}/hosts`: with a JSON
object body carrying `old` and `new` arrays of hashable values and an
existing cluster record, the handler answers 409 and leaves the store
untouched when `set(old)` differs from the current hostset as a set, and
otherwise persists the record with hostset `list(set(new))` — set-equal to
`new` — and answers 200. -/
theorem clusterHostsPut_compare_and_set
    (store : Store) (name : String) (fs : List (String × Json))
    (old nw : List Json) (cv : Json) (cl : Cluster)
    (ho : fs.lookup "old" = some (Json.arr old))
    (hn : fs.lookup "new" = some (Json.arr nw))
    (hoh : old.any Json.unhashable = false)
    (hnh : nw.any Json.unhashable = false)
    (hch : cl.hostset.any Json.unhashable = false)
    (hcv : Store.get store (clustersKeyOf name) = some cv)
    (hcl : Cluster.ofJson cv = some cl) :
    (pySetEqb old.dedup cl.hostset.dedup = false →
      clusterHostsPut store name (some (Json.obj fs)) =
        Except.ok ⟨409, store, [clustersKeyOf name], []⟩) ∧
    (pySetEqb old.dedup cl.hostset.dedup = true →
      clusterHostsPut store name (some (Json.obj fs)) =
        Except.ok ⟨200,
          Store.set store (clustersKeyOf name)
            (Cluster.toJson ⟨cl.status, nw.dedup⟩),
          [clustersKeyOf name],
          [(clustersKeyOf name, Cluster.toJson ⟨cl.status, nw.dedup⟩)]⟩ ∧
      pySetEqb nw.dedup nw = true) := by
  have hparse : parseOldNew (some (Json.obj fs)) =
      .ok (old.dedup, nw.dedup) := by
    simp [parseOldNew, Json.getItem, ho, hn, pySet_arr_ok _ hoh,
      pySet_arr_ok _ hnh]
  have hcur : pySet (Json.arr cl.hostset) = .ok cl.hostset.dedup :=
    pySet_arr_ok _ hch
  constructor
  · intro hne
    simp [clusterHostsPut, hparse, hcv, hcl, hcur, hne]
  · intro heq
    refine ⟨?_, pySetEqb_dedup_self nw⟩
    simp [clusterHostsPut, hparse, hcv, hcl, hcur, heq]

/-- C2 witness: the compare-and-set evaluated on the spec's hostset
scenario - seed the cluster with one host, replace the hostset by a
two-host list with a matching `old`. -/
theorem clusterHostsPut_compare_and_set_witness :
    clusterHostsPut [(clustersKeyOf "development",
        Json.obj [("status", Json.str "ok"),
          ("hostset", Json.arr [Json.str "10.2.0.2"])])] "development"
      (some (Json.obj [("old", Json.arr [Json.str "10.2.0.2"]),
        ("new", Json.arr [Json.str "10.2.0.2", Json.str "10.2.0.3"])])) =
      Except.ok ⟨200, [(clustersKeyOf "development",
        Json.obj [("status", Json.str "ok"),
          ("hostset", Json.arr [Json.str "10.2.0.2", Json.str "10.2.0.3"])])],
        [clustersKeyOf "development"],
        [(clustersKeyOf "development",
          Json.obj [("status", Json.str "ok"),
            ("hostset",
              Json.arr [Json.str "10.2.0.2", Json.str "10.2.0.3"])])]⟩ := by
  have h := clusterHostsPut_compare_and_set
    [(clustersKeyOf "development", Json.obj [("status", Json.str "ok"),
      ("hostset", Json.arr [Json.str "10.2.0.2"])])]
    "development"
    [("old", Json.arr [Json.str "10.2.0.2"]),
     ("new", Json.arr [Json.str "10.2.0.2", Json.str "10.2.0.3"])]
    [Json.str "10.2.0.2"] [Json.str "10.2.0.2", Json.str "10.2.0.3"]
    (Json.obj [("status", Json.str "ok"),
      ("hostset", Json.arr [Json.str "10.2.0.2"])])
    ⟨Json.str "ok", [Json.str "10.2.0.2"]⟩
    rfl rfl rfl rfl rfl (by decide) rfl
  simpa using (h.2 (by decide)).1

/-- The initialized creation dict leaves the cluster field of the body
untouched. -/
theorem hostCreationInit_lookup_cluster (fs0 : List (String × Json))
    (address : String) :
    (hostCreationInit fs0 address).lookup "cluster" =
      fs0.lookup "cluster" := by
  unfold hostCreationInit
  rw [lookup_dictSet_ne _ _ _ _ (by decide),
    lookup_dictSet_ne _ _ _ _ (by decide),
    lookup_dictSet_ne _ _ _ _ (by decide),
    lookup_dictSet_ne _ _ _ _ (by decide),
    lookup_dictSet_ne _ _ _ _ (by decide),
    lookup_dictSet_ne _ _ _ _ (by decide),
    lookup_dictSet_ne _ _ _ _ (by decide)]

/-- The Host built from the initialized creation dict: the handler-set
fields override the body, and the private key is the body's. -/
theorem ofDict_hostCreation (fs0 : List (String × Json)) (address : String) :
    Host.ofDict (dictErase (hostCreationInit fs0 address) "cluster") =
      some ⟨address, "investigating", "", -1, -1, -1, Json.null,
        ((fs0.lookup "ssh_priv_key").getD Json.null)⟩ := by
  simp [Host.ofDict, hostCreationInit, lookup_dictErase_ne,
    lookup_dictSet_ne, lookup_dictSet_self]

/-- C6: `PUT /host/{address}` naming a cluster that has no record: whether or
not the host record already exists, the handler answers 409 and changes
nothing — same store, same investigate queue, no writes, no response
model. -/
theorem hostPut_unknown_cluster
    (store : Store) (queue : List (Json × Json)) (address : String)
    (fs0 : List (String × Json)) (sk : Json) (cname : String)
    (hk : fs0.lookup "ssh_priv_key" = some sk)
    (hc : fs0.lookup "cluster" = some (Json.str cname))
    (hcn : cname ≠ "")
    (hmiss : Store.get store (clustersKeyOf cname) = none) :
    hostPut store queue address (some (Json.obj fs0)) =
      Except.ok ⟨409, store, queue, [], none⟩ := by
  cases hhost : Store.get store (hostsKeyOf address) with
  | some v => simp [hostPut, hhost]
  | none =>
      have hc1 : (hostCreationInit fs0 address).lookup "cluster" =
          some (Json.str cname) := by
        rw [hostCreationInit_lookup_cluster, hc]
      simp [hostPut, hhost, hk, hc1, Json.truthy, hcn, Json.pyStr, hmiss]

/-- C6 witness: the spec's scenario 4 — host creation referencing the
unknown cluster `nope` on an empty store answers 409 and leaves the store
and the investigate queue empty. -/
theorem hostPut_unknown_cluster_witness :
    hostPut [] [] "10.2.0.2"
      (some (Json.obj [("ssh_priv_key", Json.str "dGVzdAo="),
        ("cluster", Json.str "nope")])) =
      Except.ok ⟨409, [], [], [], none⟩ := by
  exact hostPut_unknown_cluster [] [] "10.2.0.2"
    [("ssh_priv_key", Json.str "dGVzdAo="), ("cluster", Json.str "nope")]
    (Json.str "dGVzdAo=") "nope" rfl rfl (by decide) rfl

/-- The secure projection of a Host mentions a ssh_priv_key field exactly
when its last_check value does (all other fields are atomic). -/
theorem Host.toJson_secure_mentions (h : Host) :
    Json.mentionsKey "ssh_priv_key" (h.toJson true) =
      Json.mentionsKey "ssh_priv_key" h.last_check := by
  simp [Host.toJson, Json.mentionsKey, Json.mentionsKey.goF]

/-- Parsing the secure field list of a Host recovers it with a null
private key. -/
theorem Host.ofDict_secure_fields (h : Host) :
    Host.ofDict [("address", Json.str h.address),
      ("status", Json.str h.status), ("os", Json.str h.os),
      ("cpus", Json.num h.cpus), ("memory", Json.num h.memory),
      ("space", Json.num h.space), ("last_check", h.last_check)] =
      some ⟨h.address, h.status, h.os, h.cpus, h.memory, h.space,
        h.last_check, Json.null⟩ := by
  simp [Host.ofDict, List.lookup]

/-- A pointwise-true store predicate survives a set of a value it holds
for. -/
theorem Store.all_set_of_all (s : Store) (k : String) (v : Json)
    (p : String × Json → Bool) (hs : s.all p = true)
    (hv : p (k, v) = true) : (s.set k v).all p = true := by
  induction s with
  | nil => simp [Store.set, hv]
  | cons q rest ih =>
      obtain ⟨k0, v0⟩ := q
      rw [List.all_cons, Bool.and_eq_true] at hs
      by_cases h : k0 = k
      · simp only [Store.set, if_pos h, List.all_cons, Bool.and_eq_true]
        exact ⟨hv, hs.2⟩
      · simp only [Store.set, if_neg h, List.all_cons, Bool.and_eq_true]
        exact ⟨hs.1, ih hs.2⟩

/-- Elements of the hostset produced by the cluster-join are hashable. -/
theorem hostsetAdd_elems (hs : List Json) (address : String) (s : List Json)
    (h : hostsetAdd hs address = .ok s) (x : Json) (hx : x ∈ s) :
    Json.unhashable x = false := by
  unfold hostsetAdd at h
  cases hp : pySet (Json.arr hs) with
  | error e => rw [hp] at h; cases h
  | ok s0 =>
      rw [hp] at h
      simp at h
      subst h
      by_cases hmem : Json.str address ∈ s0
      · rw [if_pos hmem] at hx
        exact pySet_arr_elems hs s0 hp x hx
      · rw [if_neg hmem] at hx
        rcases List.mem_append.mp hx with hx | hx
        · exact pySet_arr_elems hs s0 hp x hx
        · simp at hx
          subst hx
          rfl

/-- A status taken from a clean cluster record is clean. -/
theorem Cluster.status_clean (k : String) (cv : Json) (cl : Cluster)
    (hcl : Cluster.ofJson cv = some cl)
    (hc : Json.mentionsKey k cv = false) :
    Json.mentionsKey k cl.status = false := by
  cases cv with
  | null => simp [Cluster.ofJson] at hcl
  | bool b => simp [Cluster.ofJson] at hcl
  | num n => simp [Cluster.ofJson] at hcl
  | str s => simp [Cluster.ofJson] at hcl
  | arr xs => simp [Cluster.ofJson] at hcl
  | obj cfs =>
      cases hst : cfs.lookup "status" with
      | none => simp [Cluster.ofJson, hst] at hcl
      | some st =>
          cases hhs : cfs.lookup "hostset" with
          | none => simp [Cluster.ofJson, hst, hhs] at hcl
          | some hsv =>
              cases hsv with
              | null => simp [Cluster.ofJson, hst, hhs] at hcl
              | bool b => simp [Cluster.ofJson, hst, hhs] at hcl
              | num n => simp [Cluster.ofJson, hst, hhs] at hcl
              | str s => simp [Cluster.ofJson, hst, hhs] at hcl
              | obj gs => simp [Cluster.ofJson, hst, hhs] at hcl
              | arr hs =>
                  simp [Cluster.ofJson, hst, hhs] at hcl
                  have hmem := lookup_mem _ _ _ hst
                  have hclean2 :=
                    (mentionsKey_obj_field k cfs "status" st hc hmem).2
                  rw [← hcl]
                  exact hclean2

/-- A binding of a store after a set is an old binding or the new pair. -/
theorem Store.mem_set (s : Store) (k : String) (v : Json) (p : String × Json)
    (h : p ∈ s.set k v) : p ∈ s ∨ p = (k, v) := by
  induction s with
  | nil =>
      simp [Store.set] at h
      simp [h]
  | cons q rest ih =>
      obtain ⟨k0, v0⟩ := q
      by_cases h0 : k0 = k
      · simp only [Store.set, if_pos h0] at h
        rcases List.mem_cons.mp h with h | h
        · exact Or.inr (by simp [h])
        · exact Or.inl (List.mem_cons_of_mem _ h)
      · simp only [Store.set, if_neg h0] at h
        rcases List.mem_cons.mp h with h | h
        · exact Or.inl (h ▸ List.mem_cons_self _ _)
        · rcases ih h with h | h
          · exact Or.inl (List.mem_cons_of_mem _ h)
          · exact Or.inr h

/-- A set of a clean value keeps every stored value clean. -/
theorem Store.set_clean (s : Store) (k : String) (v : Json) (key : String)
    (hs : ∀ a b, (a, b) ∈ s → Json.mentionsKey key b = false)
    (hv : Json.mentionsKey key v = false) :
    ∀ a b, (a, b) ∈ s.set k v → Json.mentionsKey key b = false := by
  intro a b hab
  rcases Store.mem_set s k v (a, b) hab with h | h
  · exact hs a b h
  · injection h with h1 h2
    subst h2
    exact hv

/-- The tail of host creation only writes ssh_priv_key-free values and
answers a Host whose secure serialization is ssh_priv_key-free. -/
theorem hostPutFinish_clean
    (store : Store) (queue : List (Json × Json)) (address : String)
    (fs0 : List (String × Json)) (sshKey : Json)
    (clusterAct : Option (String × Cluster))
    (hclean : store.all
      (fun p => !(Json.mentionsKey "ssh_priv_key" p.2)) = true)
    (hact : ∀ a, clusterAct = some a →
      Json.mentionsKey "ssh_priv_key" (Cluster.toJson a.2) = false) :
    (match hostPutFinish store queue address
        (dictErase (hostCreationInit fs0 address) "cluster") sshKey
        clusterAct with
     | .error _ => true
     | .ok r =>
        (r.writes.all fun w => !(Json.mentionsKey "ssh_priv_key" w.2)) &&
        (r.store.all fun p => !(Json.mentionsKey "ssh_priv_key" p.2)) &&
        (match r.respModel with
         | some h2 => !(Json.mentionsKey "ssh_priv_key" (h2.toJson true))
         | none => true)) = true := by
  have hh := ofDict_hostCreation fs0 address
  cases clusterAct with
  | none =>
      simp only [hostPutFinish, hh]
      simp [Host.toJson, Host.ofDict, List.lookup, Json.mentionsKey,
        Json.mentionsKey.goF, Store.all_set_of_all, hclean]
  | some a =>
      obtain ⟨ck, cl2⟩ := a
      have hcv2 : Json.mentionsKey "ssh_priv_key" (Cluster.toJson cl2) =
          false := hact (ck, cl2) rfl
      simp only [Cluster.toJson] at hcv2
      simp [Json.mentionsKey, Json.mentionsKey.goF] at hcv2
      have hsf : ∀ a b, (a, b) ∈ store →
          Json.mentionsKey "ssh_priv_key" b = false := by
        intro a b hab
        simpa using List.all_eq_true.mp hclean (a, b) hab
      simp only [hostPutFinish, hh]
      simp [Host.toJson, Host.ofDict, List.lookup, Json.mentionsKey,
        Json.mentionsKey.goF, Cluster.toJson, hcv2]
      intro a b hab
      refine Store.set_clean _ _ _ _ ?_ ?_ a b hab
      · exact Store.set_clean _ _ _ _ hsf
          (by simp [Json.mentionsKey, Json.mentionsKey.goF])
      · simp [Cluster.toJson, Json.mentionsKey, Json.mentionsKey.goF, hcv2]

/-- C5: `PUT /host/{address}` never leaks the private key: starting from a
store whose values are all free of a ssh_priv_key field, every value the
handler writes (the host record through the secure projection, and the
joined cluster record) is free of it, the resulting store stays free of it,
and the Host model answered on 201 — built back from the persisted secure
value — serializes without it. -/
theorem hostPut_never_persists_ssh_priv_key
    (store : Store) (queue : List (Json × Json)) (address : String)
    (body : Option Json)
    (hclean : store.all
      (fun p => !(Json.mentionsKey "ssh_priv_key" p.2)) = true) :
    (match hostPut store queue address body with
     | .error _ => true
     | .ok r =>
        (r.writes.all fun w => !(Json.mentionsKey "ssh_priv_key" w.2)) &&
        (r.store.all fun p => !(Json.mentionsKey "ssh_priv_key" p.2)) &&
        (match r.respModel with
         | some h2 => !(Json.mentionsKey "ssh_priv_key" (h2.toJson true))
         | none => true)) = true := by
  cases hhost : Store.get store (hostsKeyOf address) with
  | some v => simp [hostPut, hhost, hclean]
  | none =>
      cases body with
      | none => simp [hostPut, hhost]
      | some b =>
          cases b with
          | null => simp [hostPut, hhost]
          | bool b2 => simp [hostPut, hhost]
          | num n => simp [hostPut, hhost]
          | str s => simp [hostPut, hhost]
          | arr xs => simp [hostPut, hhost]
          | obj fs0 =>
              cases hk : fs0.lookup "ssh_priv_key" with
              | none => simp [hostPut, hhost, hk]
              | some sk =>
                  cases hcval :
                      (hostCreationInit fs0 address).lookup "cluster" with
                  | none =>
                      simp only [hostPut, hhost, hk, hcval]
                      exact hostPutFinish_clean store queue address fs0 sk
                        none hclean (by intro a ha; cases ha)
                  | some cval =>
                      cases htr : cval.truthy with
                      | false =>
                          simp only [hostPut, hhost, hk, hcval, htr]
                          exact hostPutFinish_clean store queue address fs0
                            sk none hclean (by intro a ha; cases ha)
                      | true =>
                          cases hcg : Store.get store
                              (clustersKeyOf (Json.pyStr cval)) with
                          | none =>
                              simp [hostPut, hhost, hk, hcval, htr, hcg,
                                hclean]
                          | some cv =>
                              cases hcl : Cluster.ofJson cv with
                              | none =>
                                  simp [hostPut, hhost, hk, hcval, htr,
                                    hcg, hcl]
                              | some cl =>
                                  cases hadd :
                                      hostsetAdd cl.hostset address with
                                  | error e =>
                                      simp [hostPut, hhost, hk, hcval, htr,
                                        hcg, hcl, hadd]
                                  | ok hs2 =>
                                      simp only [hostPut, hhost, hk, hcval,
                                        htr, Option.getD_some, if_true,
                                        hcg, hcl, hadd]
                                      refine hostPutFinish_clean store queue
                                        address fs0 sk
                                        (some (clustersKeyOf
                                          (Json.pyStr cval),
                                          ⟨cl.status, hs2⟩)) hclean ?_
                                      intro a ha
                                      injection ha with ha
                                      subst ha
                                      have hcvclean :
                                          Json.mentionsKey "ssh_priv_key"
                                            cv = false := by
                                        simpa using List.all_eq_true.mp
                                          hclean _ (Store.get_mem _ _ _ hcg)
                                      have hst := Cluster.status_clean
                                        "ssh_priv_key" cv cl hcl hcvclean
                                      have hhs2 :
                                          ∀ x ∈ hs2, Json.mentionsKey
                                            "ssh_priv_key" x = false := by
                                        intro x hx
                                        exact mentionsKey_of_not_unhashable
                                          _ x (hostsetAdd_elems cl.hostset
                                            address hs2 hadd x hx)
                                      simp [Cluster.toJson,
                                        Json.mentionsKey,
                                        Json.mentionsKey.goF, hst,
                                        mentionsKey_go_eq_false
                                          "ssh_priv_key" hs2 hhs2]

/-- C5 witness: host creation joining the seeded cluster `development`,
evaluated concretely — nothing persisted or answered carries
ssh_priv_key. -/
theorem hostPut_never_persists_ssh_priv_key_witness :
    (match hostPut [(clustersKeyOf "development",
        Json.obj [("status", Json.str "ok"), ("hostset", Json.arr [])])] []
        "10.2.0.2"
        (some (Json.obj [("ssh_priv_key", Json.str "dGVzdAo="),
          ("cluster", Json.str "development")])) with
     | .error _ => true
     | .ok r =>
        (r.writes.all fun w => !(Json.mentionsKey "ssh_priv_key" w.2)) &&
        (r.store.all fun p => !(Json.mentionsKey "ssh_priv_key" p.2)) &&
        (match r.respModel with
         | some h2 => !(Json.mentionsKey "ssh_priv_key" (h2.toJson true))
         | none => true)) = true := by
  exact hostPut_never_persists_ssh_priv_key
    [(clustersKeyOf "development",
      Json.obj [("status", Json.str "ok"), ("hostset", Json.arr [])])] []
    "10.2.0.2"
    (some (Json.obj [("ssh_priv_key", Json.str "dGVzdAo="),
      ("cluster", Json.str "development")]))
    (by decide)

/-- A raised exception stops the scrub fold. -/
theorem scrubFold_error (address : String) (es : List (String × Json))
    (e : PyErr) : es.foldl (scrubStep address) (.error e) = .error e := by
  induction es with
  | nil => rfl
  | cons e2 rest ih => simpa [scrubStep] using ih

/-- The scrub fold succeeds when every listed record parses. -/
theorem scrubFold_ok (address : String) (es : List (String × Json))
    (s : Store) (ws : List (String × Json))
    (hp : ∀ e ∈ es, (Cluster.ofJson e.2).isSome = true) :
    ∃ s2 ws2, es.foldl (scrubStep address) (.ok (s, ws)) = .ok (s2, ws2) := by
  induction es generalizing s ws with
  | nil => exact ⟨s, ws, rfl⟩
  | cons e rest ih =>
      obtain ⟨ek, ev⟩ := e
      have he := hp (ek, ev) (by simp)
      cases hcle : Cluster.ofJson ev with
      | none => rw [hcle] at he; cases he
      | some cle =>
          rw [List.foldl_cons]
          by_cases hm : Json.str address ∈ cle.hostset
          · rw [show scrubStep address (.ok (s, ws)) (ek, ev) =
              .ok (s.set ek (Cluster.toJson ⟨cle.status,
                cle.hostset.erase (Json.str address)⟩),
                ws ++ [(ek, Cluster.toJson ⟨cle.status,
                  cle.hostset.erase (Json.str address)⟩)]) from by
              simp [scrubStep, hcle, hm]]
            exact ih _ _ fun e2 he2 => hp e2 (by simp [he2])
          · rw [show scrubStep address (.ok (s, ws)) (ek, ev) =
              .ok (s, ws) from by simp [scrubStep, hcle, hm]]
            exact ih _ _ fun e2 he2 => hp e2 (by simp [he2])

/-- The scrub fold keeps store keys unique. -/
theorem scrubFold_nodup (address : String) (es : List (String × Json))
    (s : Store) (ws : List (String × Json)) (s2 : Store)
    (ws2 : List (String × Json))
    (hnd : (s.map Prod.fst).Nodup)
    (hfold : es.foldl (scrubStep address) (.ok (s, ws)) = .ok (s2, ws2)) :
    (s2.map Prod.fst).Nodup := by
  induction es generalizing s ws with
  | nil =>
      simp at hfold
      rw [← hfold.1]
      exact hnd
  | cons e rest ih =>
      obtain ⟨ek, ev⟩ := e
      rw [List.foldl_cons] at hfold
      cases hcle : Cluster.ofJson ev with
      | none =>
          rw [show scrubStep address (.ok (s, ws)) (ek, ev) =
            .error .typeError from by simp [scrubStep, hcle]] at hfold
          rw [scrubFold_error] at hfold
          cases hfold
      | some cle =>
          by_cases hm : Json.str address ∈ cle.hostset
          · rw [show scrubStep address (.ok (s, ws)) (ek, ev) =
              .ok (s.set ek (Cluster.toJson ⟨cle.status,
                cle.hostset.erase (Json.str address)⟩),
                ws ++ [(ek, Cluster.toJson ⟨cle.status,
                  cle.hostset.erase (Json.str address)⟩)]) from by
              simp [scrubStep, hcle, hm]] at hfold
            exact ih _ _ (Store.nodup_set _ _ _ hnd) hfold
          · rw [show scrubStep address (.ok (s, ws)) (ek, ev) =
              .ok (s, ws) from by simp [scrubStep, hcle, hm]] at hfold
            exact ih _ _ hnd hfold

/-- Keys no scrub entry names keep their value across the fold. -/
theorem scrubFold_get_of_not_mem (address : String)
    (es : List (String × Json)) (s : Store) (ws : List (String × Json))
    (s2 : Store) (ws2 : List (String × Json)) (k : String)
    (hk : ∀ e ∈ es, e.1 ≠ k)
    (hfold : es.foldl (scrubStep address) (.ok (s, ws)) = .ok (s2, ws2)) :
    s2.get k = s.get k := by
  induction es generalizing s ws with
  | nil =>
      simp at hfold
      rw [← hfold.1]
  | cons e rest ih =>
      obtain ⟨ek, ev⟩ := e
      have hek : ek ≠ k := hk (ek, ev) (by simp)
      rw [List.foldl_cons] at hfold
      cases hcle : Cluster.ofJson ev with
      | none =>
          rw [show scrubStep address (.ok (s, ws)) (ek, ev) =
            .error .typeError from by simp [scrubStep, hcle]] at hfold
          rw [scrubFold_error] at hfold
          cases hfold
      | some cle =>
          by_cases hm : Json.str address ∈ cle.hostset
          · rw [show scrubStep address (.ok (s, ws)) (ek, ev) =
              .ok (s.set ek (Cluster.toJson ⟨cle.status,
                cle.hostset.erase (Json.str address)⟩),
                ws ++ [(ek, Cluster.toJson ⟨cle.status,
                  cle.hostset.erase (Json.str address)⟩)]) from by
              simp [scrubStep, hcle, hm]] at hfold
            rw [ih _ _ (fun e2 he2 => hk e2 (List.mem_cons_of_mem _ he2))
              hfold]
            exact Store.get_set_ne _ _ _ _ (Ne.symm hek)
          · rw [show scrubStep address (.ok (s, ws)) (ek, ev) =
              .ok (s, ws) from by simp [scrubStep, hcle, hm]] at hfold
            exact ih _ _ (fun e2 he2 => hk e2 (List.mem_cons_of_mem _ he2))
              hfold

/-- The value the scrub fold leaves at the key of a listed entry: the
record with the first occurrence of the address removed when it was a
member, the untouched store value otherwise. -/
theorem scrubFold_get_of_mem (address : String) (es : List (String × Json))
    (s : Store) (ws : List (String × Json)) (s2 : Store)
    (ws2 : List (String × Json)) (k : String) (v : Json) (cl : Cluster)
    (hmem : (k, v) ∈ es) (hnd : (es.map Prod.fst).Nodup)
    (hcl : Cluster.ofJson v = some cl)
    (hfold : es.foldl (scrubStep address) (.ok (s, ws)) = .ok (s2, ws2)) :
    s2.get k = if Json.str address ∈ cl.hostset
      then some (Cluster.toJson ⟨cl.status,
        cl.hostset.erase (Json.str address)⟩)
      else s.get k := by
  induction es generalizing s ws with
  | nil => simp at hmem
  | cons e rest ih =>
      obtain ⟨ek, ev⟩ := e
      rw [List.foldl_cons] at hfold
      simp only [List.map_cons, List.nodup_cons] at hnd
      rcases List.mem_cons.mp hmem with he | he
      · injection he with h1 h2
        subst h1
        subst h2
        have hknotin : ∀ e2 ∈ rest, e2.1 ≠ k := by
          intro e2 he2 heq
          exact hnd.1 (heq ▸ List.mem_map_of_mem Prod.fst he2)
        by_cases hm : Json.str address ∈ cl.hostset
        · rw [show scrubStep address (.ok (s, ws)) (k, v) =
            .ok (s.set k (Cluster.toJson ⟨cl.status,
              cl.hostset.erase (Json.str address)⟩),
              ws ++ [(k, Cluster.toJson ⟨cl.status,
                cl.hostset.erase (Json.str address)⟩)]) from by
            simp [scrubStep, hcl, hm]] at hfold
          rw [scrubFold_get_of_not_mem address rest _ _ _ _ k hknotin hfold]
          rw [Store.get_set_self, if_pos hm]
        · rw [show scrubStep address (.ok (s, ws)) (k, v) =
            .ok (s, ws) from by simp [scrubStep, hcl, hm]] at hfold
          rw [scrubFold_get_of_not_mem address rest _ _ _ _ k hknotin hfold,
            if_neg hm]
      · have hkek : k ≠ ek := by
          intro heq
          exact hnd.1 (heq ▸ List.mem_map_of_mem Prod.fst he)
        cases hcle : Cluster.ofJson ev with
        | none =>
            rw [show scrubStep address (.ok (s, ws)) (ek, ev) =
              .error .typeError from by simp [scrubStep, hcle]] at hfold
            rw [scrubFold_error] at hfold
            cases hfold
        | some cle =>
            by_cases hm2 : Json.str address ∈ cle.hostset
            · rw [show scrubStep address (.ok (s, ws)) (ek, ev) =
                .ok (s.set ek (Cluster.toJson ⟨cle.status,
                  cle.hostset.erase (Json.str address)⟩),
                  ws ++ [(ek, Cluster.toJson ⟨cle.status,
                    cle.hostset.erase (Json.str address)⟩)]) from by
                simp [scrubStep, hcle, hm2]] at hfold
              rw [ih _ _ he hnd.2 hfold]
              by_cases hm : Json.str address ∈ cl.hostset
              · rw [if_pos hm, if_pos hm]
              · rw [if_neg hm, if_neg hm]
                exact Store.get_set_ne _ _ _ _ hkek
            · rw [show scrubStep address (.ok (s, ws)) (ek, ev) =
                .ok (s, ws) from by simp [scrubStep, hcle, hm2]] at hfold
              exact ih _ _ he hnd.2 hfold

/-- The scrub loop of on_delete leaves no cluster record holding the
address, over any unique-key store whose cluster records parse with at most
one occurrence of it. -/
theorem scrub_postcondition (store1 : Store) (address : String)
    (hnd : (store1.map Prod.fst).Nodup)
    (hcl : ∀ p ∈ store1, underClustersDir p.1 = true →
      ∃ cl, Cluster.ofJson p.2 = some cl ∧
        List.count (Json.str address) cl.hostset ≤ 1) :
    ∃ s2 ws2,
      (store1.filter fun p => underClustersDir p.1).foldl
        (scrubStep address) (.ok (store1, [])) = .ok (s2, ws2) ∧
      (s2.all fun p => !underClustersDir p.1 ||
        (match Cluster.ofJson p.2 with
         | some cl => !(decide (Json.str address ∈ cl.hostset))
         | none => false)) = true := by
  have hsubes : (store1.filter fun p => underClustersDir p.1).Sublist
      store1 := List.filter_sublist _
  have hesnd : ((store1.filter fun p => underClustersDir p.1).map
      Prod.fst).Nodup := hnd.sublist (hsubes.map Prod.fst)
  have hespar : ∀ e ∈ store1.filter fun p => underClustersDir p.1,
      (Cluster.ofJson e.2).isSome = true := by
    intro e he
    obtain ⟨cl, hcl2, _⟩ := hcl e (List.mem_of_mem_filter he)
      (by simpa using List.of_mem_filter he)
    simp [hcl2]
  obtain ⟨s2, ws2, hfold⟩ := scrubFold_ok address _ store1 [] hespar
  have hnd2 := scrubFold_nodup address _ store1 [] s2 ws2 hnd hfold
  refine ⟨s2, ws2, hfold, ?_⟩
  rw [List.all_eq_true]
  rintro ⟨k, v2⟩ hp
  by_cases hu : underClustersDir k = true
  swap
  · simp at hu
    simp [hu]
  · by_cases hkmem : k ∈ (store1.filter fun p =>
        underClustersDir p.1).map Prod.fst
    · obtain ⟨a, ha, hak⟩ := List.mem_map.mp hkmem
      obtain ⟨k0, v⟩ := a
      have hkk : k0 = k := hak
      subst hkk
      have hmem1 := List.mem_of_mem_filter ha
      obtain ⟨cl, hclv, hcount⟩ := hcl (k0, v) hmem1 hu
      have hget := scrubFold_get_of_mem address _ store1 [] s2 ws2 k0 v cl
        ha hesnd hclv hfold
      have hgetv2 : s2.get k0 = some v2 :=
        Store.get_of_mem_nodup s2 k0 v2 hnd2 hp
      by_cases hm : Json.str address ∈ cl.hostset
      · rw [if_pos hm] at hget
        rw [hget] at hgetv2
        injection hgetv2 with hv2
        subst hv2
        have hc0 : List.count (Json.str address)
            (cl.hostset.erase (Json.str address)) = 0 := by
          rw [List.count_erase_self]
          exact Nat.sub_eq_zero_of_le hcount
        have hnotmem := List.count_eq_zero.mp hc0
        simp [Cluster.ofJson_toJson, hnotmem]
      · rw [if_neg hm] at hget
        rw [hget] at hgetv2
        have hgv : store1.get k0 = some v :=
          Store.get_of_mem_nodup store1 k0 v hnd hmem1
        rw [hgv] at hgetv2
        injection hgetv2 with hv2
        subst hv2
        simp [hclv, hm]
    · have hknot : ∀ e ∈ store1.filter fun p =>
          underClustersDir p.1, e.1 ≠ k := by
        intro e he heq
        exact hkmem (heq ▸ List.mem_map_of_mem Prod.fst he)
      have hget := scrubFold_get_of_not_mem address _ store1 [] s2 ws2 k
        hknot hfold
      have hgetv2 : s2.get k = some v2 :=
        Store.get_of_mem_nodup s2 k v2 hnd2 hp
      rw [hget] at hgetv2
      have hmem1 := Store.get_mem store1 k v2 hgetv2
      have hmf : (k, v2) ∈ store1.filter fun p => underClustersDir p.1 :=
        List.mem_filter.mpr ⟨hmem1, by simpa using hu⟩
      exact absurd (List.mem_map_of_mem Prod.fst hmf) hkmem

/-- C7: after `DELETE /host/{address}` answers 410, no cluster record under
the clusters directory still lists the address: on a unique-key store whose
cluster records parse with at most one occurrence of the address, the
handler deletes the host key and rewrites every cluster record holding the
address, leaving every parsed hostset in the resulting store free of it. -/
theorem hostDelete_scrubs_memberships (store : Store) (address : String)
    (hnd : (store.map Prod.fst).Nodup)
    (hcl : (store.all fun p => !underClustersDir p.1 ||
      (match Cluster.ofJson p.2 with
       | some cl => decide (List.count (Json.str address) cl.hostset ≤ 1)
       | none => false)) = true)
    (hhost : (Store.get store (hostsKeyOf address)).isSome = true) :
    (match hostDelete store address with
     | .error _ => False
     | .ok r => r.status = 410 ∧
        (r.store.all fun p => !underClustersDir p.1 ||
          (match Cluster.ofJson p.2 with
           | some cl => !(decide (Json.str address ∈ cl.hostset))
           | none => false)) = true) := by
  have hdel : (store.del (hostsKeyOf address)).isSome = true := by
    rw [Store.del_isSome]
    exact hhost
  cases hd : store.del (hostsKeyOf address) with
  | none => rw [hd] at hdel; cases hdel
  | some store1 =>
      have hsub := Store.del_sublist store store1 (hostsKeyOf address) hd
      have hnd1 : (store1.map Prod.fst).Nodup :=
        hnd.sublist (hsub.map Prod.fst)
      have hcl1 : ∀ p ∈ store1, underClustersDir p.1 = true →
          ∃ cl, Cluster.ofJson p.2 = some cl ∧
            List.count (Json.str address) cl.hostset ≤ 1 := by
        intro p hp hu
        have hb := List.all_eq_true.mp hcl p (hsub.subset hp)
        rw [hu] at hb
        simp at hb
        cases hc : Cluster.ofJson p.2 with
        | none => rw [hc] at hb; simp at hb
        | some cl =>
            rw [hc] at hb
            simp at hb
            exact ⟨cl, rfl, hb⟩
      obtain ⟨s2, ws2, hfold, hpost⟩ :=
        scrub_postcondition store1 address hnd1 hcl1
      simp only [hostDelete, hd, Option.getD_some, hfold]
      exact ⟨trivial, hpost⟩

/-- C7 witness: deleting the seeded host removes it from the seeded
cluster's hostset; evaluated concretely, the response is 410 and no cluster
record lists the address. -/
theorem hostDelete_scrubs_memberships_witness :
    (match hostDelete
        [(hostsKeyOf "10.2.0.2",
          Json.obj [("address", Json.str "10.2.0.2")]),
         (clustersKeyOf "development",
          Json.obj [("status", Json.str "ok"),
            ("hostset", Json.arr [Json.str "10.2.0.2"])])] "10.2.0.2" with
     | .error _ => False
     | .ok r => r.status = 410 ∧
        (r.store.all fun p => !underClustersDir p.1 ||
          (match Cluster.ofJson p.2 with
           | some cl => !(decide (Json.str "10.2.0.2" ∈ cl.hostset))
           | none => false)) = true) := by
  exact hostDelete_scrubs_memberships
    [(hostsKeyOf "10.2.0.2", Json.obj [("address", Json.str "10.2.0.2")]),
     (clustersKeyOf "development", Json.obj [("status", Json.str "ok"),
       ("hostset", Json.arr [Json.str "10.2.0.2"])])] "10.2.0.2"
    (by decide) (by decide) (by decide)

/-- C10: the membership scrub of `DELETE /host/{address}` runs even when the
host record is absent and the response is 404: under the same store
hypotheses, every parsed hostset in the resulting store is free of the
address. -/
theorem hostDelete_scrub_runs_on_404 (store : Store) (address : String)
    (hnd : (store.map Prod.fst).Nodup)
    (hcl : (store.all fun p => !underClustersDir p.1 ||
      (match Cluster.ofJson p.2 with
       | some cl => decide (List.count (Json.str address) cl.hostset ≤ 1)
       | none => false)) = true)
    (hhost : Store.get store (hostsKeyOf address) = none) :
    (match hostDelete store address with
     | .error _ => False
     | .ok r => r.status = 404 ∧
        (r.store.all fun p => !underClustersDir p.1 ||
          (match Cluster.ofJson p.2 with
           | some cl => !(decide (Json.str address ∈ cl.hostset))
           | none => false)) = true) := by
  have hd : store.del (hostsKeyOf address) = none := by
    cases hdel : store.del (hostsKeyOf address) with
    | none => rfl
    | some s1 =>
        have h2 := Store.del_isSome store (hostsKeyOf address)
        rw [hdel, hhost] at h2
        simp at h2
  have hcl1 : ∀ p ∈ store, underClustersDir p.1 = true →
      ∃ cl, Cluster.ofJson p.2 = some cl ∧
        List.count (Json.str address) cl.hostset ≤ 1 := by
    intro p hp hu
    have hb := List.all_eq_true.mp hcl p hp
    rw [hu] at hb
    simp at hb
    cases hc : Cluster.ofJson p.2 with
    | none => rw [hc] at hb; simp at hb
    | some cl =>
        rw [hc] at hb
        simp at hb
        exact ⟨cl, rfl, hb⟩
  obtain ⟨s2, ws2, hfold, hpost⟩ :=
    scrub_postcondition store address hnd hcl1
  simp only [hostDelete, hd, Option.getD_none, hfold]
  exact ⟨trivial, hpost⟩

/-- C10 witness: deleting an absent host still scrubs it from the seeded
cluster; evaluated concretely, the response is 404 and no cluster record
lists the address. -/
theorem hostDelete_scrub_runs_on_404_witness :
    (match hostDelete
        [(clustersKeyOf "development",
          Json.obj [("status", Json.str "ok"),
            ("hostset", Json.arr [Json.str "10.2.0.2"])])] "10.2.0.2" with
     | .error _ => False
     | .ok r => r.status = 404 ∧
        (r.store.all fun p => !underClustersDir p.1 ||
          (match Cluster.ofJson p.2 with
           | some cl => !(decide (Json.str "10.2.0.2" ∈ cl.hostset))
           | none => false)) = true) := by
  exact hostDelete_scrub_runs_on_404
    [(clustersKeyOf "development", Json.obj [("status", Json.str "ok"),
      ("hostset", Json.arr [Json.str "10.2.0.2"])])] "10.2.0.2"
    (by decide) (by decide) (by decide)

/-- Subscription on an object in terms of lookup. -/
theorem getItem_obj (fs : List (String × Json)) (k : String) :
    (Json.obj fs).getItem k =
      (match fs.lookup k with
       | some v => .ok v
       | none => .error .keyError) := rfl

/-- C4: when fact gathering and bootstrap both succeed, the investigator
probes the container manager at most three times with five-second sleeps
between consecutive probes (the source's dead `cnt == 3` guard never
fires), finishes without an exception, and persists status active when some
probe answers true and inactive when all three answer false. -/
theorem investigatorItem_cm_poll
    (store : Store) (tr : Transport) (toInvestigate : Json) (now : String)
    (address : String) (dfs facts : List (String × Json)) (osv : Json)
    (ha : toInvestigate.getItem "address" = .ok (Json.str address))
    (hstore : Store.get store (hostsKeyOf address) = some (Json.obj dfs))
    (hgi : tr.getInfo = .ok facts)
    (hos : (dictSet (dictSet (dictUpdate dfs facts) "last_check"
        (Json.str now)) "status" (Json.str "bootstrapping")).lookup "os" =
      some osv)
    (hboot : tr.bootstrapOk = true) :
    (investigatorItem store tr toInvestigate now).err = none ∧
    ((investigatorItem store tr toInvestigate now).effects.countP
      fun e => match e with
        | Effect.cmCall _ => true
        | _ => false) ≤ 3 ∧
    (cmLoop tr.nodeRegistered [0, 1, 2]).2 =
      (if tr.nodeRegistered 0 then [Effect.cmCall 0]
       else if tr.nodeRegistered 1 then
        [Effect.cmCall 0, Effect.sleep 5, Effect.cmCall 1]
       else if tr.nodeRegistered 2 then
        [Effect.cmCall 0, Effect.sleep 5, Effect.cmCall 1, Effect.sleep 5,
         Effect.cmCall 2]
       else
        [Effect.cmCall 0, Effect.sleep 5, Effect.cmCall 1, Effect.sleep 5,
         Effect.cmCall 2, Effect.sleep 5]) ∧
    (Store.get (investigatorItem store tr toInvestigate now).store
        (hostsKeyOf address)).map (fun v => v.getItem "status") =
      some (Except.ok (Json.str
        (if tr.nodeRegistered 0 || tr.nodeRegistered 1 ||
            tr.nodeRegistered 2
         then "active" else "inactive"))) := by
  cases h0 : tr.nodeRegistered 0 <;> cases h1 : tr.nodeRegistered 1 <;>
    cases h2 : tr.nodeRegistered 2 <;>
    simp [investigatorItem, ha, Json.pyStr, hstore, hgi, hos, hboot,
      cmLoop, h0, h1, h2, Store.get_set_self, getItem_obj,
      lookup_dictSet_self, List.countP_cons, List.countP_nil,
      List.countP_append]

/-- C4 witness: a host whose second container-manager probe succeeds —
evaluated concretely, the worker makes two probes with one five-second
sleep between them and persists status active. -/
theorem investigatorItem_cm_poll_witness :
    (investigatorItem
        [(hostsKeyOf "10.2.0.2", Json.obj [("address", Json.str "10.2.0.2")])]
        ⟨Except.ok [("os", Json.str "fedora")], true, fun i => i == 1⟩
        (Json.obj [("address", Json.str "10.2.0.2")]) "T0").err = none ∧
    ((investigatorItem
        [(hostsKeyOf "10.2.0.2", Json.obj [("address", Json.str "10.2.0.2")])]
        ⟨Except.ok [("os", Json.str "fedora")], true, fun i => i == 1⟩
        (Json.obj [("address", Json.str "10.2.0.2")]) "T0").effects.countP
      fun e => match e with
        | Effect.cmCall _ => true
        | _ => false) ≤ 3 ∧
    (cmLoop (fun i => i == 1) [0, 1, 2]).2 =
      [Effect.cmCall 0, Effect.sleep 5, Effect.cmCall 1] ∧
    (Store.get (investigatorItem
        [(hostsKeyOf "10.2.0.2", Json.obj [("address", Json.str "10.2.0.2")])]
        ⟨Except.ok [("os", Json.str "fedora")], true, fun i => i == 1⟩
        (Json.obj [("address", Json.str "10.2.0.2")]) "T0").store
      (hostsKeyOf "10.2.0.2")).map (fun v => v.getItem "status") =
      some (Except.ok (Json.str "active")) := by
  have h := investigatorItem_cm_poll
    [(hostsKeyOf "10.2.0.2", Json.obj [("address", Json.str "10.2.0.2")])]
    ⟨Except.ok [("os", Json.str "fedora")], true, fun i => i == 1⟩
    (Json.obj [("address", Json.str "10.2.0.2")]) "T0" "10.2.0.2"
    [("address", Json.str "10.2.0.2")] [("os", Json.str "fedora")]
    (Json.str "fedora") rfl rfl rfl rfl rfl
  simpa using h
